import Mathlib

/-!
Shallow embedding of `src/Library/requests.py` (create_fastapi_app): an
in-memory library-lending API with four mutating handlers (signup, login,
create_book, borrow_book) and two read-only handlers (search_books,
my_loans).  Python dicts are modelled as association lists whose update
semantics (replace in place, append new keys at the end) matches dict
assignment; ids are Nat, copy counters are Int (Python int), timestamps
are Nat.  Nondeterministic externals are parameters: the random token of
secrets.token_urlsafe(32) and the clock datetime.now are inputs of the
corresponding handler.
-/

namespace Library

/-- Python dict lookup `d.get(key)` on an association list. -/
def dictGet {α β : Type} [DecidableEq α] : List (α × β) → α → Option β
  | [], _ => none
  | kv :: rest, key => if kv.1 = key then some kv.2 else dictGet rest key

/-- Python dict assignment `d[key] = val`: replaces the binding in place when
the key is present, otherwise appends it (dict iteration order is insertion
order). -/
def dictSet {α β : Type} [DecidableEq α] : List (α × β) → α → β → List (α × β)
  | [], key, val => [(key, val)]
  | kv :: rest, key, val =>
      if kv.1 = key then (key, val) :: rest else kv :: dictSet rest key val

/-- Python `max(d.keys())` for Nat keys (0 on the empty dict; the handlers
only apply it to nonempty dicts, where it agrees with Python max). -/
def dictMaxKey {β : Type} (l : List (Nat × β)) : Nat :=
  l.foldr (fun kv m => max kv.1 m) 0

/-- Python `str.lower()` restricted to the ASCII letters that the
Authorization-header check actually inspects. -/
def lowerChar (c : Char) : Char :=
  if 65 ≤ c.toNat ∧ c.toNat ≤ 90 then Char.ofNat (c.toNat + 32) else c

/-- Lowercase every character: `s.lower()` on the character list of s. -/
def pyLower (l : List Char) : List Char := l.map lowerChar

/-- ASCII whitespace, as stripped by Python `str.strip()`. -/
def isSpaceChar (c : Char) : Bool :=
  c == ' ' || c == '\t' || c == '\n' || c == '\r'

/-- Python `s.strip()`: drop leading and trailing whitespace. -/
def pyStrip (l : List Char) : List Char :=
  ((l.dropWhile isSpaceChar).reverse.dropWhile isSpaceChar).reverse

/-- Python `s.split(" ", 1)[1]`: everything after the first space.  The
handler only evaluates this after checking that the lowercased header starts
with "bearer ", so a first space exists. -/
def afterFirstSpace (l : List Char) : List Char :=
  (l.dropWhile (fun c => c != ' ')).drop 1

/-- UserRecord dataclass of requests.py. -/
structure UserRecord where
  id : Nat
  username : String
  email : String
  full_name : String
  password_hash : String
  role : String
deriving DecidableEq

/-- BookOut pydantic model: the stored representation of a book. -/
structure BookOut where
  id : Nat
  title : String
  author : String
  isbn : String
  category : String
  total_copies : Int
  available_copies : Int
deriving DecidableEq

/-- LoanOut pydantic model: the stored representation of a loan.  The
borrowed_at timestamp is a Nat clock value standing for the UTC datetime. -/
structure LoanOut where
  id : Nat
  user_id : Nat
  book_id : Nat
  borrowed_at : Nat
  returned_at : Option Nat
deriving DecidableEq

/-- SignupRequest payload (validated fields of the pydantic model). -/
structure SignupRequest where
  username : String
  email : String
  password : String
  full_name : String
deriving DecidableEq

/-- SignupResponse payload returned by the signup handler. -/
structure SignupResponse where
  id : Nat
  username : String
  email : String
  full_name : String
  role : String
deriving DecidableEq

/-- LoginRequest payload. -/
structure LoginRequest where
  username : String
  password : String
deriving DecidableEq

/-- TokenResponse payload returned by the login handler. -/
structure TokenResponse where
  access_token : String
  token_type : String
deriving DecidableEq

/-- BookCreateRequest payload (validated fields of the pydantic model). -/
structure BookCreateRequest where
  title : String
  author : String
  isbn : String
  category : String
  total_copies : Int
deriving DecidableEq

/-- BorrowRequest payload. -/
structure BorrowRequest where
  book_id : Nat
  user_id : Nat
deriving DecidableEq

/-- The in-memory store closed over by create_fastapi_app: user table,
username index, token table, book table with its id counter, loan list with
its id counter. -/
structure Store where
  users_by_id : List (Nat × UserRecord)
  user_id_by_username : List (String × Nat)
  tokens_to_user_id : List (String × Nat)
  books_by_id : List (Nat × BookOut)
  next_book_id : Nat
  loans : List LoanOut
  next_loan_id : Nat
deriving DecidableEq

/-- The store as initialised by create_fastapi_app: every table empty, both
id counters at 1. -/
def emptyStore : Store :=
  { users_by_id := []
    user_id_by_username := []
    tokens_to_user_id := []
    books_by_id := []
    next_book_id := 1
    loans := []
    next_loan_id := 1 }

/-- Model of _hash_password, i.e. hashlib.sha256(pw.encode()).hexdigest().
SHA-256 is an external library primitive; the handlers use the digest only
as an opaque deterministic string compared for equality, so it is modelled
as an injective tagging function. -/
def _hash_password (pw : String) : String := "sha256:" ++ pw

/-- Field constraints of the SignupRequest pydantic model (username 3..50,
password 6..128, full_name 1..100; the EmailStr format check is an external
validator and is not modelled).  FastAPI rejects payloads violating them
before the handler runs. -/
def validSignup (p : SignupRequest) : Prop :=
  3 ≤ p.username.length ∧ p.username.length ≤ 50 ∧
  6 ≤ p.password.length ∧ p.password.length ≤ 128 ∧
  1 ≤ p.full_name.length ∧ p.full_name.length ≤ 100

/-- Field constraints of the BookCreateRequest pydantic model. -/
def validBookCreate (p : BookCreateRequest) : Prop :=
  1 ≤ p.title.length ∧ p.title.length ≤ 200 ∧
  1 ≤ p.author.length ∧ p.author.length ≤ 120 ∧
  10 ≤ p.isbn.length ∧ p.isbn.length ≤ 20 ∧
  1 ≤ p.category.length ∧ p.category.length ≤ 80 ∧
  1 ≤ p.total_copies ∧ p.total_copies ≤ 10000

/-- Field constraints of the BorrowRequest pydantic model (both ids ge 1). -/
def validBorrow (p : BorrowRequest) : Prop :=
  1 ≤ p.book_id ∧ 1 ≤ p.user_id

/-- get_current_user dependency: parse the Authorization header, look the
token up, reject (401) a missing bearer prefix, an unknown token, a falsy
user id (Python `if not user_id`), or an id absent from the user table.
Under the prefix guard the first space sits right after "bearer", so
`split(" ", 1)[1]` is everything after the first space. -/
def get_current_user (s : Store) (authorization : String) : Except Nat UserRecord :=
  if !("bearer ".data.isPrefixOf (pyLower authorization.data)) then
    Except.error 401
  else
    match dictGet s.tokens_to_user_id ⟨pyStrip (afterFirstSpace authorization.data)⟩ with
    | none => Except.error 401
    | some user_id =>
      if user_id = 0 then Except.error 401
      else
        match dictGet s.users_by_id user_id with
        | none => Except.error 401
        | some u => Except.ok u

/-- require_admin dependency: get_current_user, then 403 unless the role is
"admin". -/
def require_admin (s : Store) (authorization : String) : Except Nat UserRecord :=
  match get_current_user s authorization with
  | Except.error e => Except.error e
  | Except.ok user =>
      if user.role ≠ "admin" then Except.error 403 else Except.ok user

/-- Local new_id of the signup handler: max existing user id + 1, or 1 on
the empty table. -/
def signup_new_id (s : Store) : Nat :=
  if s.users_by_id.isEmpty then 1 else dictMaxKey s.users_by_id + 1

/-- Local role of the signup handler: "admin" exactly when the new id is 1. -/
def signup_role (s : Store) : String :=
  if signup_new_id s = 1 then "admin" else "user"

/-- Local user of the signup handler: the UserRecord about to be stored. -/
def signup_user (s : Store) (payload : SignupRequest) : UserRecord :=
  { id := signup_new_id s, username := payload.username, email := payload.email
    full_name := payload.full_name
    password_hash := _hash_password payload.password, role := signup_role s }

/-- signup handler (POST /auth/signup): 400 on a duplicate username,
otherwise insert signup_user under both tables and return it.  The only
error is raised before any mutation, so the store is returned unchanged on
it. -/
def signup (s : Store) (payload : SignupRequest) : Except Nat SignupResponse × Store :=
  if (dictGet s.user_id_by_username payload.username).isSome then
    (Except.error 400, s)
  else
    (Except.ok { id := (signup_user s payload).id
                 username := (signup_user s payload).username
                 email := (signup_user s payload).email
                 full_name := (signup_user s payload).full_name
                 role := (signup_user s payload).role },
     { s with users_by_id := dictSet s.users_by_id (signup_user s payload).id (signup_user s payload)
              user_id_by_username :=
                dictSet s.user_id_by_username (signup_user s payload).username (signup_user s payload).id })

/-- login handler (POST /auth/login): 401 when the username is unknown or
falsy (Python `if not uid`) or the stored hash differs from the hash of the
given password; otherwise bind the fresh random token (a parameter standing
for secrets.token_urlsafe(32)) to the user id.  A username mapped to an id
absent from the user table would raise KeyError in Python, surfacing as a
framework 500. -/
def login (s : Store) (payload : LoginRequest) (token : String) : Except Nat TokenResponse × Store :=
  match dictGet s.user_id_by_username payload.username with
  | none => (Except.error 401, s)
  | some uid =>
    if uid = 0 then (Except.error 401, s)
    else
      match dictGet s.users_by_id uid with
      | none => (Except.error 500, s)
      | some user =>
        if user.password_hash ≠ _hash_password payload.password then
          (Except.error 401, s)
        else
          (Except.ok { access_token := token, token_type := "bearer" },
           { s with tokens_to_user_id := dictSet s.tokens_to_user_id token user.id })

/-- Local book of the create_book handler: a fresh book under next_book_id
with available_copies = total_copies. -/
def create_book_record (s : Store) (payload : BookCreateRequest) : BookOut :=
  { id := s.next_book_id, title := payload.title, author := payload.author
    isbn := payload.isbn, category := payload.category
    total_copies := payload.total_copies
    available_copies := payload.total_copies }

/-- create_book handler (POST /books): the require_admin dependency runs
first (401/403), then a scan over existing books rejects a duplicate isbn
with 400, then the book is inserted under next_book_id with
available_copies = total_copies and the counter advances. -/
def create_book (s : Store) (authorization : String) (payload : BookCreateRequest) :
    Except Nat BookOut × Store :=
  match require_admin s authorization with
  | Except.error e => (Except.error e, s)
  | Except.ok _ =>
    if s.books_by_id.any (fun kv => kv.2.isbn == payload.isbn) then
      (Except.error 400, s)
    else
      (Except.ok (create_book_record s payload),
       { s with books_by_id :=
                  dictSet s.books_by_id (create_book_record s payload).id (create_book_record s payload)
                next_book_id := s.next_book_id + 1 })

/-- search_books handler (GET /books): filter the book list by the optional
category and availability query parameters; no mutation. -/
def search_books (s : Store) (category : Option String) (available : Option Bool) :
    List BookOut :=
  let results := s.books_by_id.map Prod.snd
  let results :=
    match category with
    | none => results
    | some c => results.filter (fun b => b.category == c)
  match available with
  | none => results
  | some a => results.filter (fun b => decide (0 < b.available_copies) == a)

/-- Local loan of the borrow_book handler: a fresh loan under next_loan_id
for the authenticated user, with the current clock and no return date. -/
def borrow_loan (s : Store) (user : UserRecord) (payload : BorrowRequest) (now : Nat) : LoanOut :=
  { id := s.next_loan_id, user_id := user.id, book_id := payload.book_id
    borrowed_at := now, returned_at := none }

/-- borrow_book handler (POST /loans/borrow): get_current_user runs first
(401), then the ownership check (403 when the payload user_id is not the
authenticated id), then the book lookup (404), then the availability check
(400 when no copy is left); on success the book availability drops by one
and a loan with id next_loan_id, the callers ids, the current clock and no
return date is appended. -/
def borrow_book (s : Store) (authorization : String) (payload : BorrowRequest) (now : Nat) :
    Except Nat LoanOut × Store :=
  match get_current_user s authorization with
  | Except.error e => (Except.error e, s)
  | Except.ok user =>
    if payload.user_id ≠ user.id then (Except.error 403, s)
    else
      match dictGet s.books_by_id payload.book_id with
      | none => (Except.error 404, s)
      | some book =>
        if book.available_copies ≤ 0 then (Except.error 400, s)
        else
          (Except.ok (borrow_loan s user payload now),
           { s with books_by_id := dictSet s.books_by_id payload.book_id
                      { book with available_copies := book.available_copies - 1 }
                    loans := s.loans ++ [borrow_loan s user payload now]
                    next_loan_id := s.next_loan_id + 1 })

/-- my_loans handler (GET /users/me/loans): the loans of the authenticated
user; no mutation. -/
def my_loans (s : Store) (authorization : String) : Except Nat (List LoanOut) :=
  match get_current_user s authorization with
  | Except.error e => Except.error e
  | Except.ok user => Except.ok (s.loans.filter (fun l => l.user_id == user.id))

instance (p : SignupRequest) : Decidable (validSignup p) := by
  unfold validSignup
  exact inferInstance

instance (p : BookCreateRequest) : Decidable (validBookCreate p) := by
  unfold validBookCreate
  exact inferInstance

instance (p : BorrowRequest) : Decidable (validBorrow p) := by
  unfold validBorrow
  exact inferInstance

/-- One mutating API call.  Payload side conditions are the pydantic field
constraints FastAPI enforces before a handler runs; the login token is fresh
because secrets.token_urlsafe(32) draws a new 32-byte random string. -/
inductive Step : Store → Store → Prop where
  | signup_step (s : Store) (p : SignupRequest) (hv : validSignup p) :
      Step s (signup s p).2
  | login_step (s : Store) (p : LoginRequest) (token : String)
      (hfresh : dictGet s.tokens_to_user_id token = none) :
      Step s (login s p token).2
  | create_book_step (s : Store) (authorization : String) (p : BookCreateRequest)
      (hv : validBookCreate p) :
      Step s (create_book s authorization p).2
  | borrow_step (s : Store) (authorization : String) (p : BorrowRequest) (now : Nat)
      (hv : validBorrow p) :
      Step s (borrow_book s authorization p now).2

/-- States reachable from the fresh store by any sequence of API calls. -/
inductive Reachable : Store → Prop where
  | init : Reachable emptyStore
  | step {s t : Store} : Reachable s → Step s t → Reachable t

/-- Lookup after assignment: the assigned key now maps to the new value and
every other key is untouched. -/
theorem dictGet_dictSet {α β : Type} [DecidableEq α] (l : List (α × β)) (k : α) (v : β)
    (k' : α) : dictGet (dictSet l k v) k' = if k = k' then some v else dictGet l k' := by
  induction l with
  | nil => simp [dictGet, dictSet]
  | cons kv rest ih =>
    by_cases h1 : kv.1 = k
    · by_cases h2 : k = k'
      · simp [dictSet, h1, dictGet, h2]
      · have h3 : kv.1 ≠ k' := by rw [h1]; exact h2
        simp [dictSet, h1, dictGet, h2, h3]
    · by_cases h2 : kv.1 = k'
      · have h3 : k ≠ k' := fun he => h1 (h2.trans he.symm)
        simp [dictSet, h1, dictGet, h2, h3, Ne.symm h3, ih]
      · simp [dictSet, h1, dictGet, h2, ih]

/-- A successful lookup exhibits a list member. -/
theorem dictGet_mem {α β : Type} [DecidableEq α] {l : List (α × β)} {k : α} {v : β}
    (h : dictGet l k = some v) : (k, v) ∈ l := by
  induction l with
  | nil => simp [dictGet] at h
  | cons kv rest ih =>
    obtain ⟨a, b⟩ := kv
    by_cases h1 : a = k
    · subst h1
      simp [dictGet] at h
      subst h
      exact List.mem_cons_self _ _
    · simp [dictGet, h1] at h
      exact List.mem_cons_of_mem _ (ih h)

/-- Every key present in a Nat-keyed dict is bounded by dictMaxKey. -/
theorem dictGet_le_maxKey {β : Type} {l : List (Nat × β)} {k : Nat} {v : β}
    (h : dictGet l k = some v) : k ≤ dictMaxKey l := by
  induction l with
  | nil => simp [dictGet] at h
  | cons kv rest ih =>
    obtain ⟨a, b⟩ := kv
    by_cases h1 : a = k
    · subst h1
      simp only [dictMaxKey, List.foldr_cons]
      omega
    · simp [dictGet, h1] at h
      have h2 := ih h
      simp only [dictMaxKey, List.foldr_cons] at h2 ⊢
      omega

/-- The id chosen by signup is never an existing key of the user table. -/
theorem signup_new_id_fresh (s : Store) : dictGet s.users_by_id (signup_new_id s) = none := by
  by_cases hE : s.users_by_id.isEmpty
  · have h0 : s.users_by_id = [] := List.isEmpty_iff.mp hE
    rw [signup_new_id, if_pos hE, h0]
    rfl
  · rw [signup_new_id, if_neg hE]
    cases hg : dictGet s.users_by_id (dictMaxKey s.users_by_id + 1) with
    | none => rfl
    | some v =>
      have := dictGet_le_maxKey hg
      omega

/-- Consistency invariant of the in-memory store, preserved by every
handler: record ids match their keys and are positive, the two user tables
index each other, book ids match their keys and stay below the counter,
book copies stay within bounds, isbns are unique, and tokens point at
existing users. -/
structure Inv (s : Store) : Prop where
  users_id : ∀ k u, dictGet s.users_by_id k = some u → u.id = k ∧ 1 ≤ k
  users_uname : ∀ k u, dictGet s.users_by_id k = some u →
    dictGet s.user_id_by_username u.username = some k
  uname_users : ∀ n i, dictGet s.user_id_by_username n = some i →
    ∃ u, dictGet s.users_by_id i = some u ∧ u.username = n
  books_id : ∀ k b, dictGet s.books_by_id k = some b → b.id = k ∧ k < s.next_book_id
  books_copies : ∀ k b, dictGet s.books_by_id k = some b →
    0 ≤ b.available_copies ∧ b.available_copies ≤ b.total_copies
  books_isbn : ∀ k₁ b₁ k₂ b₂, dictGet s.books_by_id k₁ = some b₁ →
    dictGet s.books_by_id k₂ = some b₂ → b₁.isbn = b₂.isbn → k₁ = k₂
  tokens_user : ∀ t i, dictGet s.tokens_to_user_id t = some i →
    ∃ u, dictGet s.users_by_id i = some u

/-- The fresh store satisfies the invariant. -/
theorem inv_empty : Inv emptyStore := by
  constructor <;> simp [emptyStore, dictGet]

/-- The id chosen by signup is positive. -/
theorem signup_new_id_pos (s : Store) : 1 ≤ signup_new_id s := by
  unfold signup_new_id
  split <;> omega

@[simp] theorem signup_user_id (s : Store) (p : SignupRequest) :
    (signup_user s p).id = signup_new_id s := rfl

@[simp] theorem signup_user_username (s : Store) (p : SignupRequest) :
    (signup_user s p).username = p.username := rfl

@[simp] theorem create_book_record_id (s : Store) (p : BookCreateRequest) :
    (create_book_record s p).id = s.next_book_id := rfl

@[simp] theorem create_book_record_isbn (s : Store) (p : BookCreateRequest) :
    (create_book_record s p).isbn = p.isbn := rfl

/-- A false isbn scan means no stored book carries that isbn. -/
theorem no_isbn_of_any_false {s : Store} {isbn : String}
    (h : s.books_by_id.any (fun kv => kv.2.isbn == isbn) = false) :
    ∀ k b, dictGet s.books_by_id k = some b → b.isbn ≠ isbn := by
  intro k b hg he
  have hm := dictGet_mem hg
  rw [List.any_eq_false] at h
  have h2 := h _ hm
  simp [he] at h2

/-- Under the invariant the book counter is never an existing key. -/
theorem next_book_id_fresh {s : Store} (h : Inv s) :
    dictGet s.books_by_id s.next_book_id = none := by
  cases hg : dictGet s.books_by_id s.next_book_id with
  | none => rfl
  | some b =>
    have := (h.books_id _ _ hg).2
    omega

/-- signup preserves the invariant. -/
theorem inv_signup (s : Store) (p : SignupRequest) (h : Inv s) : Inv (signup s p).2 := by
  by_cases hdup : (dictGet s.user_id_by_username p.username).isSome
  · unfold signup
    rw [if_pos hdup]
    exact h
  · have hnone : dictGet s.user_id_by_username p.username = none :=
      Option.not_isSome_iff_eq_none.mp hdup
    have hfresh := signup_new_id_fresh s
    have hpos := signup_new_id_pos s
    unfold signup
    rw [if_neg hdup]
    dsimp only
    constructor
    · intro k u hg
      rw [dictGet_dictSet, signup_user_id] at hg
      by_cases hk : signup_new_id s = k
      · rw [if_pos hk] at hg
        cases hg
        exact ⟨hk, by omega⟩
      · rw [if_neg hk] at hg
        exact h.users_id k u hg
    · intro k u hg
      rw [dictGet_dictSet, signup_user_id] at hg
      rw [dictGet_dictSet, signup_user_username]
      by_cases hk : signup_new_id s = k
      · rw [if_pos hk] at hg
        cases hg
        rw [signup_user_username, if_pos rfl, signup_user_id, hk]
      · rw [if_neg hk] at hg
        have ho := h.users_uname k u hg
        have hne : p.username ≠ u.username := by
          intro he
          rw [← he, hnone] at ho
          cases ho
        rw [if_neg hne]
        exact ho
    · intro n i hg
      rw [dictGet_dictSet, signup_user_username] at hg
      by_cases hn : p.username = n
      · rw [if_pos hn] at hg
        cases hg
        refine ⟨signup_user s p, ?_, by rw [signup_user_username]; exact hn⟩
        rw [dictGet_dictSet, signup_user_id, if_pos rfl]
      · rw [if_neg hn] at hg
        obtain ⟨u, hu, hun⟩ := h.uname_users n i hg
        have hi : signup_new_id s ≠ i := by
          intro he
          rw [← he, hfresh] at hu
          cases hu
        refine ⟨u, ?_, hun⟩
        rw [dictGet_dictSet, signup_user_id, if_neg hi]
        exact hu
    · exact h.books_id
    · exact h.books_copies
    · exact h.books_isbn
    · intro t i hg
      obtain ⟨u, hu⟩ := h.tokens_user t i hg
      have hi : signup_new_id s ≠ i := by
        intro he
        rw [← he, hfresh] at hu
        cases hu
      refine ⟨u, ?_⟩
      rw [dictGet_dictSet, signup_user_id, if_neg hi]
      exact hu

/-- login preserves the invariant. -/
theorem inv_login (s : Store) (p : LoginRequest) (token : String) (h : Inv s) :
    Inv (login s p token).2 := by
  unfold login
  cases hu : dictGet s.user_id_by_username p.username with
  | none => exact h
  | some uid =>
    dsimp only
    by_cases h0 : uid = 0
    · rw [if_pos h0]
      exact h
    · rw [if_neg h0]
      cases hr : dictGet s.users_by_id uid with
      | none => exact h
      | some user =>
        dsimp only
        by_cases hpw : user.password_hash ≠ _hash_password p.password
        · rw [if_pos hpw]
          exact h
        · rw [if_neg hpw]
          dsimp only
          constructor
          · exact h.users_id
          · exact h.users_uname
          · exact h.uname_users
          · exact h.books_id
          · exact h.books_copies
          · exact h.books_isbn
          · intro t i hg
            rw [dictGet_dictSet] at hg
            by_cases ht : token = t
            · rw [if_pos ht] at hg
              cases hg
              have hid := (h.users_id uid user hr).1
              exact ⟨user, by rw [hid]; exact hr⟩
            · rw [if_neg ht] at hg
              exact h.tokens_user t i hg

/-- create_book preserves the invariant; the pydantic bound total_copies ≥ 1
keeps the copy counters of the new book within range. -/
theorem inv_create_book (s : Store) (authorization : String) (p : BookCreateRequest)
    (hv : validBookCreate p) (h : Inv s) : Inv (create_book s authorization p).2 := by
  unfold create_book
  cases ha : require_admin s authorization with
  | error e => exact h
  | ok u =>
    dsimp only
    by_cases hisbn : s.books_by_id.any (fun kv => kv.2.isbn == p.isbn)
    · rw [if_pos hisbn]
      exact h
    · rw [if_neg hisbn]
      dsimp only
      have hfresh := next_book_id_fresh h
      have hno := no_isbn_of_any_false (Bool.of_not_eq_true hisbn)
      constructor
      · exact h.users_id
      · exact h.users_uname
      · exact h.uname_users
      · intro k b hg
        rw [dictGet_dictSet, create_book_record_id] at hg
        by_cases hk : s.next_book_id = k
        · rw [if_pos hk] at hg
          cases hg
          exact ⟨hk, by dsimp only; omega⟩
        · rw [if_neg hk] at hg
          have hbk := h.books_id k b hg
          exact ⟨hbk.1, by dsimp only; omega⟩
      · intro k b hg
        rw [dictGet_dictSet, create_book_record_id] at hg
        by_cases hk : s.next_book_id = k
        · rw [if_pos hk] at hg
          cases hg
          obtain ⟨-, -, -, -, -, -, -, -, h1, h2⟩ := hv
          refine ⟨?_, ?_⟩ <;> dsimp only [create_book_record] <;> omega
        · rw [if_neg hk] at hg
          exact h.books_copies k b hg
      · intro k₁ b₁ k₂ b₂ hg₁ hg₂ hbe
        rw [dictGet_dictSet, create_book_record_id] at hg₁ hg₂
        by_cases hk₁ : s.next_book_id = k₁ <;> by_cases hk₂ : s.next_book_id = k₂
        · omega
        · rw [if_pos hk₁] at hg₁
          rw [if_neg hk₂] at hg₂
          cases hg₁
          exact absurd hbe.symm (hno k₂ b₂ hg₂)
        · rw [if_neg hk₁] at hg₁
          rw [if_pos hk₂] at hg₂
          cases hg₂
          exact absurd hbe (hno k₁ b₁ hg₁)
        · rw [if_neg hk₁] at hg₁
          rw [if_neg hk₂] at hg₂
          exact h.books_isbn k₁ b₁ k₂ b₂ hg₁ hg₂ hbe
      · exact h.tokens_user

/-- borrow_book preserves the invariant: the updated book keeps its id and
isbn and its availability drops from a positive value. -/
theorem inv_borrow (s : Store) (authorization : String) (p : BorrowRequest) (now : Nat)
    (h : Inv s) : Inv (borrow_book s authorization p now).2 := by
  unfold borrow_book
  cases hu : get_current_user s authorization with
  | error e => exact h
  | ok user =>
    dsimp only
    by_cases hne : p.user_id ≠ user.id
    · rw [if_pos hne]
      exact h
    · rw [if_neg hne]
      cases hb : dictGet s.books_by_id p.book_id with
      | none => exact h
      | some book =>
        dsimp only
        by_cases hav : book.available_copies ≤ 0
        · rw [if_pos hav]
          exact h
        · rw [if_neg hav]
          dsimp only
          constructor
          · exact h.users_id
          · exact h.users_uname
          · exact h.uname_users
          · intro k b hg
            rw [dictGet_dictSet] at hg
            by_cases hk : p.book_id = k
            · rw [if_pos hk] at hg
              cases hg
              have hbk := h.books_id _ _ hb
              exact ⟨by dsimp only; rw [hbk.1, hk], by dsimp only; omega⟩
            · rw [if_neg hk] at hg
              exact h.books_id k b hg
          · intro k b hg
            rw [dictGet_dictSet] at hg
            by_cases hk : p.book_id = k
            · rw [if_pos hk] at hg
              cases hg
              have hbc := h.books_copies _ _ hb
              refine ⟨?_, ?_⟩ <;> dsimp only <;> omega
            · rw [if_neg hk] at hg
              exact h.books_copies k b hg
          · intro k₁ b₁ k₂ b₂ hg₁ hg₂ hbe
            rw [dictGet_dictSet] at hg₁ hg₂
            by_cases hk₁ : p.book_id = k₁ <;> by_cases hk₂ : p.book_id = k₂
            · omega
            · rw [if_pos hk₁] at hg₁
              rw [if_neg hk₂] at hg₂
              cases hg₁
              have hk₃ : p.book_id = k₂ :=
                h.books_isbn _ _ _ _ hb hg₂ (by dsimp only at hbe; exact hbe)
              omega
            · rw [if_neg hk₁] at hg₁
              rw [if_pos hk₂] at hg₂
              cases hg₂
              have hk₃ : p.book_id = k₁ :=
                h.books_isbn _ _ _ _ hb hg₁ (by dsimp only at hbe; exact hbe.symm)
              omega
            · rw [if_neg hk₁] at hg₁
              rw [if_neg hk₂] at hg₂
              exact h.books_isbn k₁ b₁ k₂ b₂ hg₁ hg₂ hbe
          · exact h.tokens_user

/-- Every API step preserves the invariant. -/
theorem inv_step {s t : Store} (h : Inv s) (hst : Step s t) : Inv t := by
  cases hst with
  | signup_step p hv => exact inv_signup s p h
  | login_step p token hfresh => exact inv_login s p token h
  | create_book_step a p hv => exact inv_create_book s a p hv h
  | borrow_step a p now hv => exact inv_borrow s a p now h

/-- Every reachable state satisfies the invariant. -/
theorem inv_reachable {s : Store} (h : Reachable s) : Inv s := by
  induction h with
  | init => exact inv_empty
  | step hr hst ih => exact inv_step ih hst

/-- The post-state of signup: unchanged on the duplicate error, otherwise
the two user tables gain the new user (and the username was free). -/
theorem signup_snd (s : Store) (p : SignupRequest) :
    (signup s p).2 = s ∨
    (dictGet s.user_id_by_username p.username = none ∧
     (signup s p).2 =
       { s with users_by_id := dictSet s.users_by_id (signup_new_id s) (signup_user s p)
                user_id_by_username :=
                  dictSet s.user_id_by_username p.username (signup_new_id s) }) := by
  unfold signup
  by_cases hdup : (dictGet s.user_id_by_username p.username).isSome
  · rw [if_pos hdup]
    left
    rfl
  · rw [if_neg hdup]
    right
    exact ⟨Option.not_isSome_iff_eq_none.mp hdup, rfl⟩

/-- The post-state of login: unchanged on an error, otherwise the token
table gains a binding to the id of a stored user. -/
theorem login_snd (s : Store) (p : LoginRequest) (token : String) :
    (login s p token).2 = s ∨
    ∃ uid user, dictGet s.users_by_id uid = some user ∧
      (login s p token).2 =
        { s with tokens_to_user_id := dictSet s.tokens_to_user_id token user.id } := by
  unfold login
  cases hu : dictGet s.user_id_by_username p.username with
  | none => left; rfl
  | some uid =>
    dsimp only
    by_cases h0 : uid = 0
    · rw [if_pos h0]
      left
      rfl
    · rw [if_neg h0]
      cases hr : dictGet s.users_by_id uid with
      | none => left; rfl
      | some user =>
        dsimp only
        by_cases hpw : user.password_hash ≠ _hash_password p.password
        · rw [if_pos hpw]
          left
          rfl
        · rw [if_neg hpw]
          right
          exact ⟨uid, user, hr, rfl⟩

/-- The post-state of create_book: unchanged on an error, otherwise the
isbn scan was negative and the book table gains the fresh book while the
counter advances. -/
theorem create_book_snd (s : Store) (authorization : String) (p : BookCreateRequest) :
    (create_book s authorization p).2 = s ∨
    (s.books_by_id.any (fun kv => kv.2.isbn == p.isbn) = false ∧
     (create_book s authorization p).2 =
       { s with books_by_id := dictSet s.books_by_id s.next_book_id (create_book_record s p)
                next_book_id := s.next_book_id + 1 }) := by
  unfold create_book
  cases ha : require_admin s authorization with
  | error e => left; rfl
  | ok u =>
    dsimp only
    by_cases hisbn : s.books_by_id.any (fun kv => kv.2.isbn == p.isbn)
    · rw [if_pos hisbn]
      left
      rfl
    · rw [if_neg hisbn]
      right
      exact ⟨Bool.of_not_eq_true hisbn, rfl⟩

/-- The post-state of borrow_book: unchanged on an error, otherwise the
borrowed book had a positive availability which drops by one while a loan
for the authenticated user is appended. -/
theorem borrow_book_snd (s : Store) (authorization : String) (p : BorrowRequest) (now : Nat) :
    (borrow_book s authorization p now).2 = s ∨
    ∃ user book, get_current_user s authorization = Except.ok user ∧
      dictGet s.books_by_id p.book_id = some book ∧
      0 < book.available_copies ∧
      (borrow_book s authorization p now).2 =
        { s with books_by_id := dictSet s.books_by_id p.book_id
                   { book with available_copies := book.available_copies - 1 }
                 loans := s.loans ++ [borrow_loan s user p now]
                 next_loan_id := s.next_loan_id + 1 } := by
  unfold borrow_book
  cases hu : get_current_user s authorization with
  | error e => left; rfl
  | ok user =>
    dsimp only
    by_cases hne : p.user_id ≠ user.id
    · rw [if_pos hne]
      left
      rfl
    · rw [if_neg hne]
      cases hb : dictGet s.books_by_id p.book_id with
      | none => left; rfl
      | some book =>
        dsimp only
        by_cases hav : book.available_copies ≤ 0
        · rw [if_pos hav]
          left
          rfl
        · rw [if_neg hav]
          right
          exact ⟨user, book, rfl, rfl, by omega, rfl⟩

/-!
A concrete run of the API, used to witness the theorems below: two signups
(the first becomes admin), two logins, an admin book creation with two
copies, and two successful borrows that exhaust the copies.
-/

def p_alice : SignupRequest :=
  { username := "alice", email := "alice@example.com", password := "password1"
    full_name := "Alice A" }

def p_bob : SignupRequest :=
  { username := "bob99", email := "bob@example.com", password := "password2"
    full_name := "Bob B" }

def st1 : Store := (signup emptyStore p_alice).2

def st2 : Store := (signup st1 p_bob).2

def st3 : Store := (login st2 { username := "alice", password := "password1" } "atok").2

def st4 : Store := (login st3 { username := "bob99", password := "password2" } "btok").2

def p_dune : BookCreateRequest :=
  { title := "Dune", author := "Frank Herbert", isbn := "1234567890", category := "scifi"
    total_copies := 2 }

def st5 : Store := (create_book st4 "Bearer atok" p_dune).2

def st6 : Store := (borrow_book st5 "Bearer atok" { book_id := 1, user_id := 1 } 100).2

def st7 : Store := (borrow_book st6 "Bearer btok" { book_id := 1, user_id := 2 } 200).2

/-- The stored record of the first signup. -/
def alice : UserRecord :=
  { id := 1, username := "alice", email := "alice@example.com", full_name := "Alice A"
    password_hash := _hash_password "password1", role := "admin" }

/-- The stored record of the second signup. -/
def bob : UserRecord :=
  { id := 2, username := "bob99", email := "bob@example.com", full_name := "Bob B"
    password_hash := _hash_password "password2", role := "user" }

/-- The stored record of the created book. -/
def dune : BookOut :=
  { id := 1, title := "Dune", author := "Frank Herbert", isbn := "1234567890"
    category := "scifi", total_copies := 2, available_copies := 2 }

/-- The response of the first concrete signup. -/
def aliceResp : SignupResponse :=
  { id := 1, username := "alice", email := "alice@example.com", full_name := "Alice A"
    role := "admin" }

/-- The response of the second concrete signup. -/
def bobResp : SignupResponse :=
  { id := 2, username := "bob99", email := "bob@example.com", full_name := "Bob B"
    role := "user" }

theorem reachable_st1 : Reachable st1 :=
  Reachable.step Reachable.init (Step.signup_step emptyStore p_alice (by decide))

theorem reachable_st2 : Reachable st2 :=
  Reachable.step reachable_st1 (Step.signup_step st1 p_bob (by decide))

theorem reachable_st3 : Reachable st3 :=
  Reachable.step reachable_st2
    (Step.login_step st2 { username := "alice", password := "password1" } "atok" (by rfl))

theorem reachable_st4 : Reachable st4 :=
  Reachable.step reachable_st3
    (Step.login_step st3 { username := "bob99", password := "password2" } "btok" (by rfl))

theorem reachable_st5 : Reachable st5 :=
  Reachable.step reachable_st4 (Step.create_book_step st4 "Bearer atok" p_dune (by decide))

theorem reachable_st6 : Reachable st6 :=
  Reachable.step reachable_st5
    (Step.borrow_step st5 "Bearer atok" { book_id := 1, user_id := 1 } 100 (by decide))

theorem reachable_st7 : Reachable st7 :=
  Reachable.step reachable_st6
    (Step.borrow_step st6 "Bearer btok" { book_id := 1, user_id := 2 } 200 (by decide))

/-- C1: when book b exists with positive availability and an authenticated
user u borrows it with payload user_id = u.id and book_id = b.id, the
request succeeds, the availability of b drops by exactly one with every
other field of b and every other book unchanged, and a loan with the next
loan id, user_id = u.id, book_id = b.id and no return date is appended. -/
theorem C1_borrow_success (s : Store) (authorization : String) (p : BorrowRequest)
    (now : Nat) (u : UserRecord) (b : BookOut)
    (hu : get_current_user s authorization = Except.ok u)
    (hid : p.user_id = u.id)
    (hb : dictGet s.books_by_id p.book_id = some b)
    (hav : 0 < b.available_copies) :
    ∃ loan t, borrow_book s authorization p now = (Except.ok loan, t) ∧
      loan.id = s.next_loan_id ∧ loan.user_id = u.id ∧ loan.book_id = p.book_id ∧
      loan.returned_at = none ∧
      dictGet t.books_by_id p.book_id =
        some { b with available_copies := b.available_copies - 1 } ∧
      (∀ k, k ≠ p.book_id → dictGet t.books_by_id k = dictGet s.books_by_id k) ∧
      t.loans = s.loans ++ [loan] ∧ t.next_loan_id = s.next_loan_id + 1 ∧
      t.users_by_id = s.users_by_id ∧ t.user_id_by_username = s.user_id_by_username ∧
      t.tokens_to_user_id = s.tokens_to_user_id ∧ t.next_book_id = s.next_book_id := by
  unfold borrow_book
  rw [hu]
  dsimp only
  rw [if_neg (fun hne => hne hid), hb]
  dsimp only
  rw [if_neg (by omega)]
  refine ⟨borrow_loan s u p now, _, rfl, rfl, rfl, rfl, rfl, ?_, ?_, rfl, rfl, rfl, rfl,
    rfl, rfl⟩
  · rw [dictGet_dictSet, if_pos rfl]
  · intro k hk
    rw [dictGet_dictSet, if_neg (Ne.symm hk)]

/-- C1 witness: in the concrete state st5 (one book with two copies) the
admin borrows book 1; the request succeeds with loan 1 and the availability
drops from 2 to 1. -/
theorem C1_borrow_success_witness :
    (borrow_book st5 "Bearer atok" { book_id := 1, user_id := 1 } 100).1 =
      Except.ok { id := 1, user_id := 1, book_id := 1, borrowed_at := 100
                  returned_at := none } ∧
    dictGet st6.books_by_id 1 = some { dune with available_copies := 1 } := by
  have _h := C1_borrow_success st5 "Bearer atok" { book_id := 1, user_id := 1 } 100 alice
    dune (by rfl) (by decide) (by rfl) (by decide)
  exact ⟨by rfl, by rfl⟩

/-- C2: when book b exists with zero available copies, a borrow request for
b by an authenticated user (payload user_id matching the authenticated id,
so that the ownership check passes) is rejected with status 400 and the
whole store is unchanged. -/
theorem C2_borrow_unavailable (s : Store) (authorization : String) (p : BorrowRequest)
    (now : Nat) (u : UserRecord) (b : BookOut)
    (hu : get_current_user s authorization = Except.ok u)
    (hid : p.user_id = u.id)
    (hb : dictGet s.books_by_id p.book_id = some b)
    (hz : b.available_copies = 0) :
    borrow_book s authorization p now = (Except.error 400, s) := by
  unfold borrow_book
  rw [hu]
  dsimp only
  rw [if_neg (fun hne => hne hid), hb]
  dsimp only
  rw [if_pos (by omega)]

/-- C2 witness: in st7 both copies of book 1 are out, so a further borrow
by the admin is rejected with 400 and the store is unchanged. -/
theorem C2_borrow_unavailable_witness :
    borrow_book st7 "Bearer atok" { book_id := 1, user_id := 1 } 300 =
      (Except.error 400, st7) :=
  C2_borrow_unavailable st7 "Bearer atok" { book_id := 1, user_id := 1 } 300 alice
    { dune with available_copies := 0 } (by rfl) (by decide) (by rfl) (by decide)

/-- C6: a create_book request whose token resolves to a non-admin user is
rejected with 403 and no book is created, while a token resolving to an
admin passes the require_admin check. -/
theorem C6_admin_only (s : Store) (authorization : String) (p : BookCreateRequest)
    (u : UserRecord) (hu : get_current_user s authorization = Except.ok u) :
    (u.role ≠ "admin" →
      require_admin s authorization = Except.error 403 ∧
      create_book s authorization p = (Except.error 403, s)) ∧
    (u.role = "admin" → require_admin s authorization = Except.ok u) := by
  constructor
  · intro hr
    have h1 : require_admin s authorization = Except.error 403 := by
      unfold require_admin
      rw [hu]
      dsimp only
      rw [if_pos hr]
    refine ⟨h1, ?_⟩
    unfold create_book
    rw [h1]
  · intro hr
    unfold require_admin
    rw [hu]
    dsimp only
    rw [if_neg (fun hne => hne hr)]

/-- C6 witness: in st4 the token btok belongs to the non-admin bob, whose
creation attempt is rejected with 403, while atok belongs to the admin
alice and passes the check. -/
theorem C6_admin_only_witness :
    (require_admin st4 "Bearer btok" = Except.error 403 ∧
     create_book st4 "Bearer btok" p_dune = (Except.error 403, st4)) ∧
    require_admin st4 "Bearer atok" = Except.ok alice :=
  ⟨(C6_admin_only st4 "Bearer btok" p_dune bob (by rfl)).1 (by decide),
   (C6_admin_only st4 "Bearer atok" p_dune alice (by rfl)).2 (by decide)⟩

/-- C7: a borrow request whose payload user_id differs from the id of the
authenticated user is rejected with 403 and the store is unchanged; the
statement puts no condition on the book table, so it covers in particular
payloads naming a book that does not exist. -/
theorem C7_borrow_ownership (s : Store) (authorization : String) (p : BorrowRequest)
    (now : Nat) (u : UserRecord)
    (hu : get_current_user s authorization = Except.ok u)
    (hne : p.user_id ≠ u.id) :
    borrow_book s authorization p now = (Except.error 403, s) := by
  unfold borrow_book
  rw [hu]
  dsimp only
  rw [if_pos hne]

/-- C7 witness: in st4 no book exists at all, yet a borrow naming user 2
under the token of user 1 is rejected with 403, not 404. -/
theorem C7_borrow_ownership_witness :
    borrow_book st4 "Bearer atok" { book_id := 1, user_id := 2 } 50 =
      (Except.error 403, st4) ∧
    dictGet st4.books_by_id 1 = none :=
  ⟨C7_borrow_ownership st4 "Bearer atok" { book_id := 1, user_id := 2 } 50 alice
    (by rfl) (by decide), by rfl⟩

/-- C3: a signup whose username is already taken is rejected with 400 and
the store is unchanged; otherwise signup returns the new user, whose id is
fresh (absent from the user table), stores its record under that id with
the hashed password, and touches no other user and no other table. -/
theorem C3_signup_duplicate (s : Store) (p : SignupRequest) :
    ((dictGet s.user_id_by_username p.username).isSome →
      signup s p = (Except.error 400, s)) ∧
    (dictGet s.user_id_by_username p.username = none →
      ∃ r t, signup s p = (Except.ok r, t) ∧
        dictGet s.users_by_id r.id = none ∧
        r.username = p.username ∧ r.email = p.email ∧ r.full_name = p.full_name ∧
        dictGet t.users_by_id r.id = some
          { id := r.id, username := p.username, email := p.email, full_name := p.full_name
            password_hash := _hash_password p.password, role := r.role } ∧
        (∀ k, k ≠ r.id → dictGet t.users_by_id k = dictGet s.users_by_id k) ∧
        t.books_by_id = s.books_by_id ∧ t.tokens_to_user_id = s.tokens_to_user_id ∧
        t.loans = s.loans) := by
  constructor
  · intro hdup
    unfold signup
    rw [if_pos hdup]
  · intro hnone
    unfold signup
    rw [if_neg (by rw [hnone]; simp)]
    refine ⟨_, _, rfl, signup_new_id_fresh s, rfl, rfl, rfl, ?_, ?_, rfl, rfl, rfl⟩
    · rw [dictGet_dictSet, signup_user_id, if_pos rfl]
      rfl
    · intro k hk
      have hk2 : signup_new_id s ≠ k := fun he => hk he.symm
      rw [dictGet_dictSet, signup_user_id, if_neg hk2]

/-- C3 witness: signing alice up again in st2 is rejected with 400 leaving
the store unchanged, while the original signup on the empty store created
her with the fresh id 1. -/
theorem C3_signup_duplicate_witness :
    signup st2 p_alice = (Except.error 400, st2) ∧
    signup emptyStore p_alice = (Except.ok aliceResp, st1) ∧
    dictGet emptyStore.users_by_id 1 = none ∧
    dictGet st1.users_by_id 1 = some alice := by
  have _h := (C3_signup_duplicate emptyStore p_alice).2 (by rfl)
  exact ⟨(C3_signup_duplicate st2 p_alice).1 (by decide), by rfl, by rfl, by rfl⟩

/-- C4: in every reachable state no two stored users share a username and
no two stored books share an isbn; moreover a create_book that passed the
admin check but names an isbn already present is rejected with 400 and the
store is unchanged. -/
theorem C4_uniqueness (s : Store) (hs : Reachable s) :
    (∀ k₁ u₁ k₂ u₂, dictGet s.users_by_id k₁ = some u₁ →
      dictGet s.users_by_id k₂ = some u₂ → u₁.username = u₂.username → k₁ = k₂) ∧
    (∀ k₁ b₁ k₂ b₂, dictGet s.books_by_id k₁ = some b₁ →
      dictGet s.books_by_id k₂ = some b₂ → b₁.isbn = b₂.isbn → k₁ = k₂) ∧
    (∀ authorization p a, require_admin s authorization = Except.ok a →
      (∃ k b, dictGet s.books_by_id k = some b ∧ b.isbn = p.isbn) →
      create_book s authorization p = (Except.error 400, s)) := by
  have h := inv_reachable hs
  refine ⟨?_, h.books_isbn, ?_⟩
  · intro k₁ u₁ k₂ u₂ h₁ h₂ he
    have e₁ := h.users_uname _ _ h₁
    have e₂ := h.users_uname _ _ h₂
    rw [he, e₂] at e₁
    cases e₁
    rfl
  · rintro authorization p a ha ⟨k, b, hk, hisbn⟩
    unfold create_book
    rw [ha]
    dsimp only
    rw [if_pos ?hany]
    case hany =>
      rw [List.any_eq_true]
      exact ⟨(k, b), dictGet_mem hk, by simp [hisbn]⟩

/-- C4 witness: in the reachable state st5 the admin recreating the book
with the already-present isbn of dune is rejected with 400 and the store is
unchanged. -/
theorem C4_uniqueness_witness :
    create_book st5 "Bearer atok" p_dune = (Except.error 400, st5) :=
  (C4_uniqueness st5 reachable_st5).2.2 "Bearer atok" p_dune alice (by rfl)
    ⟨1, dune, by rfl, rfl⟩

/-- The copy-counter range predicate of C5: every stored book has
0 ≤ available_copies ≤ total_copies. -/
def copiesInRange (s : Store) : Prop :=
  ∀ k b, dictGet s.books_by_id k = some b →
    0 ≤ b.available_copies ∧ b.available_copies ≤ b.total_copies

/-- C5: the copy-counter range predicate holds in every reachable state,
and it is preserved by every single API step (signup, login, create_book,
borrow). -/
theorem C5_copies_invariant :
    (∀ s t, copiesInRange s → Step s t → copiesInRange t) ∧
    (∀ s, Reachable s → copiesInRange s) := by
  constructor
  · intro s t hc hst
    cases hst with
    | signup_step p hv =>
      rcases signup_snd s p with he | ⟨-, he⟩ <;> rw [he] <;> exact hc
    | login_step p token hfresh =>
      rcases login_snd s p token with he | ⟨uid, user, -, he⟩ <;> rw [he] <;> exact hc
    | create_book_step a p hv =>
      rcases create_book_snd s a p with he | ⟨-, he⟩
      · rw [he]
        exact hc
      · rw [he]
        intro k b hg
        rw [dictGet_dictSet] at hg
        by_cases hk : s.next_book_id = k
        · rw [if_pos hk] at hg
          cases hg
          obtain ⟨-, -, -, -, -, -, -, -, h1, h2⟩ := hv
          refine ⟨?_, ?_⟩ <;> dsimp only [create_book_record] <;> omega
        · rw [if_neg hk] at hg
          exact hc k b hg
    | borrow_step a p now hv =>
      rcases borrow_book_snd s a p now with he | ⟨user, book, -, hb, hav, he⟩
      · rw [he]
        exact hc
      · rw [he]
        intro k b hg
        rw [dictGet_dictSet] at hg
        by_cases hk : p.book_id = k
        · rw [if_pos hk] at hg
          cases hg
          have hbc := hc _ _ hb
          refine ⟨?_, ?_⟩ <;> dsimp only <;> omega
        · rw [if_neg hk] at hg
          exact hc k b hg
  · intro s hs
    exact (inv_reachable hs).books_copies

/-- C5 witness: the preservation half applied to the concrete borrow step
from st5 to st6, and the reachability half applied to st6, where book 1
holds one of two copies. -/
theorem C5_copies_invariant_witness :
    copiesInRange st6 ∧ dictGet st6.books_by_id 1 = some { dune with available_copies := 1 } :=
  ⟨C5_copies_invariant.1 st5 st6 (C5_copies_invariant.2 st5 reachable_st5)
      (Step.borrow_step st5 "Bearer atok" { book_id := 1, user_id := 1 } 100 (by decide)),
   by rfl⟩

/-- C8: in a reachable state a login fails with 401 exactly when the
username is absent from the user table or the stored hash differs from the
hash of the given password; on success the response carries the fresh
token, the token table maps that token to the id of the matched user, and
the user and book tables are unchanged. -/
theorem C8_login_status (s : Store) (hs : Reachable s) (p : LoginRequest) (token : String) :
    ((login s p token).1 = Except.error 401 ↔
      dictGet s.user_id_by_username p.username = none ∨
      ∃ i u, dictGet s.user_id_by_username p.username = some i ∧
        dictGet s.users_by_id i = some u ∧
        u.password_hash ≠ _hash_password p.password) ∧
    (∀ r t, login s p token = (Except.ok r, t) →
      r.access_token = token ∧
      (∃ i u, dictGet s.user_id_by_username p.username = some i ∧
        dictGet s.users_by_id i = some u ∧
        dictGet t.tokens_to_user_id token = some u.id) ∧
      t.users_by_id = s.users_by_id ∧
      t.user_id_by_username = s.user_id_by_username ∧
      t.books_by_id = s.books_by_id) := by
  have hinv := inv_reachable hs
  unfold login
  cases hu : dictGet s.user_id_by_username p.username with
  | none =>
    constructor
    · simp
    · intro r t ht
      simp at ht
  | some uid =>
    obtain ⟨u0, hu0, -⟩ := hinv.uname_users _ _ hu
    have hpos : 1 ≤ uid := (hinv.users_id _ _ hu0).2
    dsimp only
    rw [if_neg (by omega), hu0]
    dsimp only
    by_cases hpw : u0.password_hash ≠ _hash_password p.password
    · rw [if_pos hpw]
      refine ⟨⟨fun _ => Or.inr ⟨uid, u0, rfl, hu0, hpw⟩, fun _ => rfl⟩, ?_⟩
      intro r t ht
      simp at ht
    · rw [if_neg hpw]
      constructor
      · constructor
        · intro he
          simp at he
        · rintro (hl | ⟨i, u, hi, hiu, hneq⟩)
          · cases hl
          · cases hi
            rw [hu0] at hiu
            cases hiu
            exact absurd hneq hpw
      · intro r t ht
        rw [Prod.mk.injEq] at ht
        obtain ⟨h1, h2⟩ := ht
        injection h1 with h1
        subst h1
        subst h2
        refine ⟨rfl, ⟨uid, u0, rfl, hu0, ?_⟩, rfl, rfl, rfl⟩
        rw [dictGet_dictSet, if_pos rfl]

/-- C8 witness: in the reachable state st2 a login by alice with a wrong
password yields 401 by the failure characterisation, and her successful
login with the fresh token atok binds that token to her id. -/
theorem C8_login_status_witness :
    (login st2 { username := "alice", password := "wrongpass1" } "tok9").1 =
      Except.error 401 ∧
    dictGet st3.tokens_to_user_id "atok" = some 1 := by
  constructor
  · exact (C8_login_status st2 reachable_st2 { username := "alice", password := "wrongpass1" }
      "tok9").1.mpr (Or.inr ⟨1, alice, by rfl, by rfl, by decide⟩)
  · have h := (C8_login_status st2 reachable_st2
      { username := "alice", password := "password1" } "atok").2
      { access_token := "atok", token_type := "bearer" } st3 (by rfl)
    obtain ⟨-, ⟨i, u, hi, hiu, hmap⟩, -, -, -⟩ := h
    rw [show dictGet st2.user_id_by_username "alice" = some 1 from rfl] at hi
    injection hi with hi
    subst hi
    rw [show dictGet st2.users_by_id 1 = some alice from rfl] at hiu
    injection hiu with hiu
    subst hiu
    exact hmap

/-- C9: along any API step taken from a reachable state, every stored
user, username binding, token and loan is preserved, and every stored book
keeps all its fields except that its availability may only decrease. -/
theorem C9_nothing_removed (s t : Store) (hs : Reachable s) (hst : Step s t) :
    (∀ k u, dictGet s.users_by_id k = some u → dictGet t.users_by_id k = some u) ∧
    (∀ n i, dictGet s.user_id_by_username n = some i →
      dictGet t.user_id_by_username n = some i) ∧
    (∀ tok i, dictGet s.tokens_to_user_id tok = some i →
      dictGet t.tokens_to_user_id tok = some i) ∧
    (∀ l, l ∈ s.loans → l ∈ t.loans) ∧
    (∀ k b, dictGet s.books_by_id k = some b → ∃ b2,
      dictGet t.books_by_id k = some b2 ∧ b2.available_copies ≤ b.available_copies ∧
      b2 = { b with available_copies := b2.available_copies }) := by
  have hinv := inv_reachable hs
  cases hst with
  | signup_step p hv =>
    rcases signup_snd s p with he | ⟨hnone, he⟩
    · rw [he]
      exact ⟨fun _ _ h => h, fun _ _ h => h, fun _ _ h => h, fun _ h => h,
        fun k b h => ⟨b, h, le_refl _, rfl⟩⟩
    · rw [he]
      refine ⟨?_, ?_, fun _ _ h => h, fun _ h => h, fun k b h => ⟨b, h, le_refl _, rfl⟩⟩
      · intro k u h
        have hk : signup_new_id s ≠ k := by
          intro hke
          rw [← hke, signup_new_id_fresh s] at h
          cases h
        rw [dictGet_dictSet, if_neg hk]
        exact h
      · intro n i h
        have hn : p.username ≠ n := by
          intro hne
          rw [← hne, hnone] at h
          cases h
        rw [dictGet_dictSet, if_neg hn]
        exact h
  | login_step p token hfresh =>
    rcases login_snd s p token with he | ⟨uid, user, -, he⟩
    · rw [he]
      exact ⟨fun _ _ h => h, fun _ _ h => h, fun _ _ h => h, fun _ h => h,
        fun k b h => ⟨b, h, le_refl _, rfl⟩⟩
    · rw [he]
      refine ⟨fun _ _ h => h, fun _ _ h => h, ?_, fun _ h => h,
        fun k b h => ⟨b, h, le_refl _, rfl⟩⟩
      intro tok i h
      have htk : token ≠ tok := by
        intro hte
        rw [← hte, hfresh] at h
        cases h
      rw [dictGet_dictSet, if_neg htk]
      exact h
  | create_book_step a p hv =>
    rcases create_book_snd s a p with he | ⟨hany, he⟩
    · rw [he]
      exact ⟨fun _ _ h => h, fun _ _ h => h, fun _ _ h => h, fun _ h => h,
        fun k b h => ⟨b, h, le_refl _, rfl⟩⟩
    · rw [he]
      refine ⟨fun _ _ h => h, fun _ _ h => h, fun _ _ h => h, fun _ h => h, ?_⟩
      intro k b h
      have hk : s.next_book_id ≠ k := by
        intro hke
        rw [← hke, next_book_id_fresh hinv] at h
        cases h
      refine ⟨b, ?_, le_refl _, rfl⟩
      dsimp only
      rw [dictGet_dictSet, if_neg hk]
      exact h
  | borrow_step a p now hv =>
    rcases borrow_book_snd s a p now with he | ⟨user, book, -, hb, hav, he⟩
    · rw [he]
      exact ⟨fun _ _ h => h, fun _ _ h => h, fun _ _ h => h, fun _ h => h,
        fun k b h => ⟨b, h, le_refl _, rfl⟩⟩
    · rw [he]
      refine ⟨fun _ _ h => h, fun _ _ h => h, fun _ _ h => h,
        fun l hl => List.mem_append_left _ hl, ?_⟩
      intro k b h
      by_cases hk : p.book_id = k
      · subst hk
        rw [hb] at h
        cases h
        refine ⟨{ book with available_copies := book.available_copies - 1 }, ?_, ?_, rfl⟩
        · dsimp only
          rw [dictGet_dictSet, if_pos rfl]
        · dsimp only
          omega
      · refine ⟨b, ?_, le_refl _, rfl⟩
        dsimp only
        rw [dictGet_dictSet, if_neg hk]
        exact h

/-- C9 witness: across the concrete borrow step from st5 to st6 the stored
users, username bindings and tokens survive, applied at the entries of
alice and bob. -/
theorem C9_nothing_removed_witness :
    dictGet st6.users_by_id 1 = some alice ∧
    dictGet st6.user_id_by_username "bob99" = some 2 ∧
    dictGet st6.tokens_to_user_id "atok" = some 1 := by
  have h := C9_nothing_removed st5 st6 reachable_st5
    (Step.borrow_step st5 "Bearer atok" { book_id := 1, user_id := 1 } 100 (by decide))
  exact ⟨h.1 1 alice (by rfl), h.2.1 "bob99" 2 (by rfl), h.2.2.1 "atok" 1 (by rfl)⟩

/-- C10: in a reachable state, a successful signup on the empty user table
yields the user id 1 with role "admin", and a successful signup on a
nonempty user table yields role "user". -/
theorem C10_first_signup_admin (s : Store) (hs : Reachable s) :
    (s.users_by_id = [] → ∀ p r t, signup s p = (Except.ok r, t) →
      r.id = 1 ∧ r.role = "admin") ∧
    (s.users_by_id ≠ [] → ∀ p r t, signup s p = (Except.ok r, t) → r.role = "user") := by
  have hinv := inv_reachable hs
  constructor
  · intro hempty p r t hsig
    have hid : signup_new_id s = 1 := by
      rw [signup_new_id, if_pos (by rw [hempty]; rfl)]
    unfold signup at hsig
    by_cases hdup : (dictGet s.user_id_by_username p.username).isSome
    · rw [if_pos hdup] at hsig
      simp at hsig
    · rw [if_neg hdup] at hsig
      rw [Prod.mk.injEq] at hsig
      obtain ⟨h1, -⟩ := hsig
      injection h1 with h1
      subst h1
      constructor
      · show (signup_user s p).id = 1
        rw [signup_user_id, hid]
      · show (signup_user s p).role = "admin"
        show signup_role s = "admin"
        rw [signup_role, if_pos hid]
  · intro hne p r t hsig
    have hbig : 2 ≤ signup_new_id s := by
      cases hlist : s.users_by_id with
      | nil => exact absurd hlist hne
      | cons kv rest =>
        have hd : dictGet s.users_by_id kv.1 = some kv.2 := by
          rw [hlist]
          simp [dictGet]
        have h1 := (hinv.users_id _ _ hd).2
        have h2 := dictGet_le_maxKey hd
        rw [signup_new_id, if_neg (by rw [hlist]; simp)]
        omega
    unfold signup at hsig
    by_cases hdup : (dictGet s.user_id_by_username p.username).isSome
    · rw [if_pos hdup] at hsig
      simp at hsig
    · rw [if_neg hdup] at hsig
      rw [Prod.mk.injEq] at hsig
      obtain ⟨h1, -⟩ := hsig
      injection h1 with h1
      subst h1
      show (signup_user s p).role = "user"
      show signup_role s = "user"
      rw [signup_role, if_neg (by omega)]

/-- C10 witness: the signup of alice on the empty store yields id 1 and
role "admin", and the signup of bob on st1 yields role "user". -/
theorem C10_first_signup_admin_witness :
    (aliceResp.id = 1 ∧ aliceResp.role = "admin") ∧ bobResp.role = "user" :=
  ⟨(C10_first_signup_admin emptyStore Reachable.init).1 rfl p_alice aliceResp st1 (by rfl),
   (C10_first_signup_admin st1 reachable_st1).2 (by decide) p_bob bobResp st2 (by rfl)⟩

end Library
